import Mathlib

/-!
Shallow embedding of the picotui core (src/picotui/screen.py and
src/picotui/basewidget.py) and proofs of the specification claims.

Python byte strings are modelled as `List Nat` (each element a byte value),
Python text strings as `List Char` or as `String` where convenient, Python
integers as `Int` (Python `%` with a positive modulus agrees with `Int.emod`,
Python `//`/`>>` with `Int.fdiv`).  Python exceptions are modelled with an
explicit error type; a function that can raise returns `Except Err _`.
The key table `KEYMAP` from defs.py is external data (the spec treats it as an
opaque mapping), so the decoder is parametrised by it.
-/

namespace Picotui

/-- Python exception kinds the embedded code can raise. -/
inductive Err
  | assertionError
  | attributeError
  | zeroDivisionError
  | indexError
  | unicodeDecodeError
  deriving DecidableEq, Repr

/-! ## Screen.wr_fixedw (screen.py lines 39-55)

    s = s[:width]; Screen.wr(s); Screen.wr(" " * (width - len(s)))

The two writes are concatenated into the produced character stream. -/

/-- Embeds `Screen.wr_fixedw`: truncate `s` to `width`, write it, then write
`width - len(s)` spaces (`s` being the already-truncated string). -/
def wr_fixedw (s : List Char) (width : Nat) : List Char :=
  let s2 := s.take width
  s2 ++ List.replicate (width - s2.length) ' '

/-! ## ItemSelWidget (basewidget.py lines 197-217)

`ChoiceWidget` stores `choice`; `ItemSelWidget` adds `items` and
`move_sel(direction)`:

    self.choice = (self.choice + direction) % len(self.items)
    self.redraw()
    self.signal("changed")

With `len(self.items) == 0` the `%` raises ZeroDivisionError before the
assignment happens, so the widget state is unchanged.  The redraw and the
signal emission are external effects; they are recorded in an action trace. -/

inductive WAction
  | redraw
  | sigChanged
  deriving DecidableEq, Repr

structure ItemSelWidget (α : Type) where
  choice : Int
  items : List α
  deriving DecidableEq, Repr

/-- Embeds `ItemSelWidget.move_sel`.  Returns the widget state after the call,
the exception raised if any (ZeroDivisionError from `% 0` fires before the
assignment, leaving the state unchanged), and the trace of external effects
(redraw, then the "changed" signal) performed after the assignment. -/
def move_sel (w : ItemSelWidget α) (direction : Int) :
    ItemSelWidget α × Option Err × List WAction :=
  if w.items.length = 0 then
    (w, some .zeroDivisionError, [])
  else
    ({ w with choice := (w.choice + direction) % (w.items.length : Int) },
     none, [.redraw, .sigChanged])

/-! ## Screen.attr_color (screen.py lines 94-133)

    if bg == -1:
        bg = fg >> 4
        fg &= 0xf
    if bg is None:
        if (fg > 8): wr("\x1b[%d;1m" % (fg + 30 - 8))
        else:        wr("\x1b[%dm" % (fg + 30))
    else:
        assert bg <= 8
        if (fg > 8): wr("\x1b[%d;%d;1m" % (fg + 30 - 8, bg + 40))
        else:        wr("\x1b[0;%d;%dm" % (fg + 30, bg + 40))

`bg` is `Option Int`: `none` models Python `None`, `some b` an integer
argument (`some (-1)` being the auto sentinel checked first).  Python `>> 4`
is floor division by 16 and `& 0xf` is floor modulus by 16. -/

/-- Embeds `Screen.attr_color`.  Produces the escape-sequence string written
to the output stream, or the AssertionError raised by `assert bg <= 8`. -/
def attr_color (fg0 : Int) (bg0 : Option Int) : Except Err String :=
  let fg : Int := if bg0 = some (-1) then fg0 % 16 else fg0
  let bg : Option Int := if bg0 = some (-1) then some (fg0.fdiv 16) else bg0
  match bg with
  | none =>
      if fg > 8 then .ok ("\x1b[" ++ toString (fg + 30 - 8) ++ ";1m")
      else .ok ("\x1b[" ++ toString (fg + 30) ++ "m")
  | some b =>
      if b ≤ 8 then
        if fg > 8 then
          .ok ("\x1b[" ++ toString (fg + 30 - 8) ++ ";" ++ toString (b + 40) ++ ";1m")
        else
          .ok ("\x1b[0;" ++ toString (fg + 30) ++ ";" ++ toString (b + 40) ++ "m")
      else .error .assertionError

/-! ## Widget signal registry (basewidget.py lines 39-97)

    def __init__(self): self.kbuf = b""; self.signals = {}
    def signal(self, sig):
        if sig in self.signals:
            self.signals[sig](self)
    def on(self, sig, handler):
        self.signals[sig] = handler

Handlers are external callables; they are modelled by an abstract handler
type `H`.  `signal` is embedded as the list of handler invocations it
performs, each invocation recording the handler and the argument it is called
with (the widget itself).  Note the code has no raise path: when `sig` is
unregistered the `if` guard makes the call a silent no-op, even though the
method's own docstring says it raises KeyError in that case. -/

structure WidgetSig (H : Type) where
  signals : String → Option H

/-- Embeds `Widget.__init__`'s signal state: an empty registry. -/
def WidgetSig.init : WidgetSig H := { signals := fun _ => none }

/-- Embeds `Widget.on`: registers/replaces the handler for `sig`. -/
def WidgetSig.on (w : WidgetSig H) (sig : String) (handler : H) : WidgetSig H :=
  { signals := fun s => if s = sig then some handler else w.signals s }

/-- Embeds `Widget.signal`: the list of handler invocations performed, each a
pair of the handler and the argument passed to it (the widget itself).  The
unregistered case performs no invocation and raises nothing. -/
def WidgetSig.signal (w : WidgetSig H) (sig : String) : List (H × WidgetSig H) :=
  match w.signals sig with
  | some h => [(h, w)]
  | none => []

/-! ## Raw-mode lifecycle (screen.py lines 245-256)

    @classmethod
    def init_tty(cls):
        cls.org_termios = termios.tcgetattr(0)
        tty.setraw(0)
    @classmethod
    def deinit_tty(cls):
        termios.tcsetattr(0, termios.TCSANOW, cls.org_termios)

Terminal attributes are an opaque snapshot type `A`; `tty.setraw` is an
arbitrary transformation of them, passed as a parameter.  The class-level
attribute `org_termios` starts absent (a fresh process), so reading it before
any `init_tty` raises AttributeError. -/

structure TtyState (A : Type) where
  /-- current terminal line-discipline attributes -/
  term : A
  /-- the class attribute `org_termios`; `none` = never assigned -/
  org_termios : Option A

/-- Embeds `Screen.init_tty`: snapshot the current attributes into
`org_termios`, then put the terminal into raw mode. -/
def init_tty (setraw : A → A) (s : TtyState A) : TtyState A :=
  { term := setraw s.term, org_termios := some s.term }

/-- Embeds `Screen.deinit_tty`: reading `cls.org_termios` raises
AttributeError when it was never assigned; otherwise `tcsetattr` makes the
snapshot the current terminal attributes. -/
def deinit_tty (s : TtyState A) : Except Err (TtyState A) :=
  match s.org_termios with
  | none => .error .attributeError
  | some a => .ok { s with term := a }

/-! ## UTF-8 codec

`Widget.get_input` calls `bytes.decode()` and `str.encode()`.  These are
embedded as a strict UTF-8 decoder (rejecting truncated sequences, stray
continuation bytes, overlong forms, surrogates and out-of-range code points,
as Python's strict `decode` does) and the standard UTF-8 encoder.  Code
points are `Nat`, byte strings `List Nat`. -/

def isCont (b : Nat) : Bool := 0x80 ≤ b && b < 0xC0

/-- Decodes one UTF-8 character: the code point and the remaining bytes. -/
def utf8DecodeChar : List Nat → Option (Nat × List Nat)
  | [] => none
  | b :: r =>
    if b < 0x80 then some (b, r)
    else if b < 0xC2 then none
    else if b < 0xE0 then
      match r with
      | c1 :: r1 =>
        if isCont c1 then some ((b - 0xC0) * 64 + (c1 - 0x80), r1) else none
      | [] => none
    else if b < 0xF0 then
      match r with
      | c1 :: c2 :: r2 =>
        if isCont c1 && isCont c2 then
          let cp := (b - 0xE0) * 4096 + (c1 - 0x80) * 64 + (c2 - 0x80)
          if cp < 0x800 then none
          else if 0xD800 ≤ cp && cp < 0xE000 then none
          else some (cp, r2)
        else none
      | _ => none
    else if b < 0xF5 then
      match r with
      | c1 :: c2 :: c3 :: r3 =>
        if isCont c1 && isCont c2 && isCont c3 then
          let cp := (b - 0xF0) * 262144 + (c1 - 0x80) * 4096 +
            (c2 - 0x80) * 64 + (c3 - 0x80)
          if cp < 0x10000 then none
          else if 0x110000 ≤ cp then none
          else some (cp, r3)
        else none
      | _ => none
    else none

/-- Fuel-indexed driver for `utf8Decode`; each character consumes at least
one byte, so `l.length` fuel always suffices. -/
def utf8DecodeAux : Nat → List Nat → Option (List Nat)
  | _, [] => some []
  | 0, _ :: _ => none
  | fuel + 1, b :: r =>
    match utf8DecodeChar (b :: r) with
    | none => none
    | some (c, rest) =>
      match utf8DecodeAux fuel rest with
      | none => none
      | some cs => some (c :: cs)

/-- Embeds Python strict `bytes.decode()`: the list of code points, or `none`
for a UnicodeDecodeError. -/
def utf8Decode (l : List Nat) : Option (List Nat) :=
  utf8DecodeAux l.length l

/-- Embeds `str.encode()` for a single code point. -/
def utf8EncodeChar (c : Nat) : List Nat :=
  if c < 0x80 then [c]
  else if c < 0x800 then [0xC0 + c / 64, 0x80 + c % 64]
  else if c < 0x10000 then
    [0xE0 + c / 4096, 0x80 + c / 64 % 64, 0x80 + c % 64]
  else
    [0xF0 + c / 262144, 0x80 + c / 4096 % 64, 0x80 + c / 64 % 64, 0x80 + c % 64]

/-- Embeds Python `str.encode()` on a list of code points. -/
def utf8Encode (cs : List Nat) : List Nat := (cs.map utf8EncodeChar).flatten

/-! ## Widget.get_input (basewidget.py lines 117-147)

    if self.kbuf:
        key = self.kbuf[0:1]
        self.kbuf = self.kbuf[1:]
    else:
        key = os.read(0, 32)
        if key[0] != 0x1b:
            key = key.decode()
            self.kbuf = key[1:].encode()
            key = key[0:1].encode()
    key = _KEYMAP.get(key, key)
    if isinstance(key, bytes) and key.startswith(b"\x1b[M") and len(key) == 6:
        row = key[5] - 33
        col = key[4] - 33
        return [col, row]
    return key

`KEYMAP` lives in defs.py (external data); per the `get_input` docstring its
values are the string representations of keys, so it is modelled as a
parameter `keymap : List Nat → Option String`.  The decoder's result is a
Python value: a symbolic-key string, a raw byte string, or a `[col, row]`
mouse pair (`col`/`row` are `Int`, as Python's subtraction can go negative).
The blocking `os.read(0, 32)` is modelled by passing the chunk it returns as
the `fresh` argument, used only when the buffer is empty. -/

inductive PyVal
  | str (s : String)
  | bytes (bs : List Nat)
  | mouse (col row : Int)
  deriving DecidableEq, Repr

/-- The `key = _KEYMAP.get(key, key)` lookup followed by the mouse-report
check and return, shared by all paths of `get_input`. -/
def resolveKey (keymap : List Nat → Option String) (cand : List Nat) : PyVal :=
  match keymap cand with
  | some s => .str s
  | none =>
    if cand.take 3 = [0x1b, 0x5b, 0x4d] ∧ cand.length = 6 then
      .mouse ((cand.getD 4 0 : Int) - 33) ((cand.getD 5 0 : Int) - 33)
    else .bytes cand

/-- Embeds `Widget.get_input`.  `kbuf` is the widget's lookahead buffer
before the call; `fresh` is the chunk a blocking `os.read(0, 32)` would
return, consulted only when `kbuf` is empty.  Returns the produced value and
the buffer after the call, or the exception raised. -/
def get_input (keymap : List Nat → Option String) (kbuf fresh : List Nat) :
    Except Err (PyVal × List Nat) :=
  match kbuf with
  | b :: rest => .ok (resolveKey keymap [b], rest)
  | [] =>
    match fresh with
    | [] => .error .indexError
    | b :: _ =>
      if b ≠ 0x1b then
        match utf8Decode fresh with
        | none => .error .unicodeDecodeError
        | some cs =>
          .ok (resolveKey keymap (utf8Encode (cs.take 1)), utf8Encode (cs.drop 1))
      else
        .ok (resolveKey keymap fresh, [])

/-! ## Widget.handle_input and Widget.loop (basewidget.py lines 149-182)

    def handle_input(self, inp):
        if isinstance(inp, list):
            res = self.handle_mouse(inp[0], inp[1])
        else:
            res = self.handle_key(inp)
        return res

    def loop(self):
        self.redraw()
        while True:
            key = self.get_input()
            res = self.handle_input(key)
            if res is not None and res is not True:
                return res

`handle_mouse`/`handle_key` are supplied by concrete widgets; they are
parameters.  A handler's Python result is `None`, `True` (the generic
continue sentinel), or any other value. -/

/-- A handler's result: Python `None`, Python `True`, or another value. -/
inductive HRes (ρ : Type)
  | hNone
  | hTrue
  | hVal (v : ρ)
  deriving DecidableEq, Repr

/-- Embeds `Widget.handle_input`: mouse events (the only list-valued inputs)
go to `handle_mouse` with the two coordinates, everything else to
`handle_key`. -/
def handle_input (hm : Int → Int → HRes ρ) (hk : PyVal → HRes ρ)
    (inp : PyVal) : HRes ρ :=
  match inp with
  | .mouse c r => hm c r
  | _ => hk inp

/-- The decoder's input-side state inside a running loop: the widget's
lookahead buffer plus the chunks that successive blocking `os.read(0, 32)`
calls will return. -/
structure InState where
  kbuf : List Nat
  reads : List (List Nat)
  deriving DecidableEq, Repr

inductive GIOut
  | ok (v : PyVal) (st : InState)
  | raised (e : Err)
  | blocked
  deriving DecidableEq, Repr

/-- `Widget.get_input` acting on an `InState`: a fresh read consumes the next
pending chunk; with no pending chunk the blocking read never returns. -/
def get_input_st (keymap : List Nat → Option String) (st : InState) : GIOut :=
  match st.kbuf with
  | b :: rest =>
    match get_input keymap (b :: rest) [] with
    | .ok (v, kb) => .ok v { st with kbuf := kb }
    | .error e => .raised e
  | [] =>
    match st.reads with
    | [] => .blocked
    | r :: rs =>
      match get_input keymap [] r with
      | .ok (v, kb) => .ok v { kbuf := kb, reads := rs }
      | .error e => .raised e

/-- One externally visible action of `Widget.loop`. -/
inductive LAction
  | redraw
  | dispatch (i : PyVal)
  deriving DecidableEq, Repr

/-- How a (fuel-bounded) run of the loop body ends. -/
inductive LoopOut (ρ : Type)
  | done (v : ρ) (st : InState)
  | raised (e : Err)
  | blocked (st : InState)
  | fuelOut (st : InState)
  deriving DecidableEq, Repr

/-- The `while True` body of `Widget.loop`: decode one event, dispatch it,
return the handler result when it is neither `None` nor `True`, else repeat.
`fuel` bounds how many iterations are unrolled. -/
def loopAux (keymap : List Nat → Option String) (hm : Int → Int → HRes ρ)
    (hk : PyVal → HRes ρ) : Nat → InState → List LAction × LoopOut ρ
  | 0, st => ([], .fuelOut st)
  | fuel + 1, st =>
    match get_input_st keymap st with
    | .blocked => ([], .blocked st)
    | .raised e => ([], .raised e)
    | .ok i st2 =>
      match handle_input hm hk i with
      | .hVal v => ([.dispatch i], .done v st2)
      | _ =>
        let (acts, out) := loopAux keymap hm hk fuel st2
        (.dispatch i :: acts, out)

/-- Embeds `Widget.loop`: an initial full redraw, then the decode-dispatch
iteration. -/
def loop (keymap : List Nat → Option String) (hm : Int → Int → HRes ρ)
    (hk : PyVal → HRes ρ) (fuel : Nat) (st : InState) :
    List LAction × LoopOut ρ :=
  let (acts, out) := loopAux keymap hm hk fuel st
  (.redraw :: acts, out)

/-! ## Claims -/

/-- C7: `wr_fixedw s w` writes exactly `w` characters: all of `s` followed by
`w - len s` trailing spaces when `len s ≤ w`, and exactly the first `w`
characters of `s` (nothing else) when `len s > w`. -/
theorem C7_wr_fixedw_exact (s : List Char) (w : Nat) :
    (wr_fixedw s w).length = w ∧
    (s.length ≤ w → wr_fixedw s w = s ++ List.replicate (w - s.length) ' ') ∧
    (w < s.length → wr_fixedw s w = s.take w) := by
  refine ⟨?_, ?_, ?_⟩
  · simp only [wr_fixedw, List.length_append, List.length_take,
      List.length_replicate]
    omega
  · intro hle
    simp [wr_fixedw, List.take_of_length_le hle]
  · intro hlt
    have hlen : (s.take w).length = w := by
      simp [List.length_take]; omega
    simp [wr_fixedw, hlen]

/-- Witness for C7 at concrete inputs. -/
theorem C7_wr_fixedw_exact_witness :
    (wr_fixedw ['a', 'b'] 4).length = 4 ∧
    wr_fixedw ['a', 'b'] 4 = ['a', 'b'] ++ List.replicate 2 ' ' ∧
    wr_fixedw ['a', 'b', 'c'] 2 = ['a', 'b'] := by
  refine ⟨(C7_wr_fixedw_exact ['a', 'b'] 4).1, ?_, ?_⟩
  · have := (C7_wr_fixedw_exact ['a', 'b'] 4).2.1 (by decide)
    simpa using this
  · have := (C7_wr_fixedw_exact ['a', 'b', 'c'] 2).2.2 (by decide)
    simpa using this

/-- C2: with non-empty `items` of length `n`, `move_sel` keeps `choice` in
`[0, n)` for any integer direction, and `move_sel d1` followed by
`move_sel d2` yields the same `choice` as a single `move_sel (d1 + d2)` from
the original state. -/
theorem C2_move_sel_range_additive (w : ItemSelWidget α) (d1 d2 : Int)
    (hne : w.items ≠ []) :
    (0 ≤ (move_sel w d1).1.choice ∧
      (move_sel w d1).1.choice < (w.items.length : Int)) ∧
    (move_sel (move_sel w d1).1 d2).1.choice =
      (move_sel w (d1 + d2)).1.choice := by
  have hz : w.items.length ≠ 0 := by
    have := List.length_pos.mpr hne
    omega
  have hzi : (w.items.length : Int) ≠ 0 := by exact_mod_cast hz
  have hpos : (0 : Int) < (w.items.length : Int) := by
    exact_mod_cast Nat.pos_of_ne_zero hz
  refine ⟨⟨?_, ?_⟩, ?_⟩
  · simp only [move_sel, if_neg hz]
    exact Int.emod_nonneg _ hzi
  · simp only [move_sel, if_neg hz]
    exact Int.emod_lt_of_pos _ hpos
  · simp only [move_sel, if_neg hz]
    rw [Int.emod_add_emod, Int.add_assoc]

/-- Witness for C2 at a concrete widget. -/
theorem C2_move_sel_range_additive_witness :
    (0 ≤ (move_sel ⟨0, [10, 20, 30]⟩ 5).1.choice ∧
      (move_sel (⟨0, [10, 20, 30]⟩ : ItemSelWidget Nat) 5).1.choice < 3) ∧
    (move_sel (move_sel ⟨0, [10, 20, 30]⟩ 5).1 (-7)).1.choice =
      (move_sel (⟨0, [10, 20, 30]⟩ : ItemSelWidget Nat) (5 + -7)).1.choice := by
  have := C2_move_sel_range_additive (⟨0, [10, 20, 30]⟩ : ItemSelWidget Nat)
    5 (-7) (by decide)
  simpa using this

/-- C10: on an empty items list, `move_sel` raises ZeroDivisionError for any
direction and leaves the whole widget state (in particular `choice`)
unchanged; on a non-empty list the modulus operation cannot raise. -/
theorem C10_move_sel_empty_raises (w : ItemSelWidget α) (d : Int) :
    (w.items = [] → move_sel w d = (w, some .zeroDivisionError, [])) ∧
    (w.items ≠ [] → (move_sel w d).2.1 = none) := by
  constructor
  · intro he
    simp [move_sel, he]
  · intro hne
    have hz : w.items.length ≠ 0 := by
      have := List.length_pos.mpr hne
      omega
    simp [move_sel, hz]

/-- Witness for C10 at concrete widgets. -/
theorem C10_move_sel_empty_raises_witness :
    move_sel (⟨7, []⟩ : ItemSelWidget Nat) 3 =
      (⟨7, []⟩, some .zeroDivisionError, []) ∧
    (move_sel (⟨0, [1, 2]⟩ : ItemSelWidget Nat) 3).2.1 = none :=
  ⟨(C10_move_sel_empty_raises ⟨7, []⟩ 3).1 rfl,
   (C10_move_sel_empty_raises ⟨0, [1, 2]⟩ 3).2 (by decide)⟩

/-- C1: the claim (and `Widget.signal`'s own docstring, which promises a
KeyError) requires emitting an unregistered signal to fail, but the code's
`if sig in self.signals` guard makes it a silent no-op: no handler is
invoked and nothing is raised.  After `on`, emitting does invoke the
registered handler exactly once with the widget itself as the argument. -/
theorem C1_signal_unbound_silent_noop :
    (WidgetSig.init : WidgetSig Nat).signal "changed" = [] ∧
    ∀ (w : WidgetSig Nat) (h : Nat),
      (w.on "changed" h).signal "changed" = [(h, w.on "changed" h)] := by
  constructor
  · rfl
  · intro w h
    simp [WidgetSig.on, WidgetSig.signal]

/-- C4: `deinit_tty` on a fresh process state (no prior `init_tty`, so the
class attribute `org_termios` was never assigned) raises AttributeError;
after `init_tty`, `deinit_tty` restores exactly the attribute snapshot taken
before raw mode was entered. -/
theorem C4_tty_roundtrip (A : Type) (setraw : A → A) (s s0 : TtyState A)
    (hfresh : s0.org_termios = none) :
    deinit_tty s0 = .error .attributeError ∧
    deinit_tty (init_tty setraw s) =
      .ok { term := s.term, org_termios := some s.term } := by
  constructor
  · simp [deinit_tty, hfresh]
  · rfl

/-- Witness for C4 at concrete terminal states. -/
theorem C4_tty_roundtrip_witness :
    deinit_tty (⟨7, none⟩ : TtyState Nat) = .error .attributeError ∧
    deinit_tty (init_tty (fun _ => 99) (⟨5, none⟩ : TtyState Nat)) =
      .ok ⟨5, some 5⟩ :=
  C4_tty_roundtrip Nat (fun _ => 99) ⟨5, none⟩ ⟨7, none⟩ rfl

/-- C3 counterexample: `bg = -2` is explicitly supplied, is neither the auto
sentinel `-1` nor `None`, and lies outside `[0, 8]`, yet `attr_color` does
not fail — the `assert bg <= 8` check is one-sided, so the call succeeds and
emits an (ill-formed) escape sequence. -/
theorem C3_attr_color_counterexample :
    attr_color 0 (some (-2)) = .ok "\x1b[0;30;38m" := by rfl

/-- C3 amended: for an explicitly supplied background `b` (not the `-1` auto
sentinel, not `None`), `attr_color` fails with AssertionError exactly when
`b > 8`; any `b ≤ 8` — including negative values — passes the check and the
call succeeds. -/
theorem C3_attr_color_upper_bound_only (fg b : Int) (hb : b ≠ -1) :
    (8 < b → attr_color fg (some b) = .error .assertionError) ∧
    (b ≤ 8 → ∃ s, attr_color fg (some b) = .ok s) := by
  have hne : (some b : Option Int) = some (-1) ↔ False := by simp [hb]
  constructor
  · intro hgt
    have : ¬ b ≤ 8 := by omega
    simp [attr_color, hne, this]
  · intro hle
    by_cases hfg : fg > 8
    · refine ⟨"\x1b[" ++ toString (fg + 30 - 8) ++ ";" ++ toString (b + 40) ++ ";1m", ?_⟩
      simp [attr_color, hne, hle, hfg]
    · refine ⟨"\x1b[0;" ++ toString (fg + 30) ++ ";" ++ toString (b + 40) ++ "m", ?_⟩
      simp [attr_color, hne, hle, hfg]

/-- Witness for C3's amended claim at concrete inputs. -/
theorem C3_attr_color_upper_bound_only_witness :
    attr_color 0 (some 9) = .error .assertionError ∧
    ∃ s, attr_color 0 (some (-2)) = .ok s :=
  ⟨(C3_attr_color_upper_bound_only 0 9 (by decide)).1 (by decide),
   (C3_attr_color_upper_bound_only 0 (-2) (by decide)).2 (by decide)⟩

/-- C8: for `bg ∈ [0, 8]` and `fg_low ∈ [0, 15]`, the packed call
`attr_color (bg*16 + fg_low)` with the auto sentinel emits exactly the bytes
of the direct call `attr_color fg_low bg`. -/
theorem C8_attr_color_packed (bg fgl : Int) (hb0 : 0 ≤ bg) (hb : bg ≤ 8)
    (hf0 : 0 ≤ fgl) (hf : fgl ≤ 15) :
    attr_color (bg * 16 + fgl) (some (-1)) = attr_color fgl (some bg) := by
  have h1 : (bg * 16 + fgl) % 16 = fgl := by omega
  have h2 : (bg * 16 + fgl).fdiv 16 = bg := by
    rw [Int.fdiv_eq_ediv _ (by norm_num)]
    omega
  have hne : (some bg : Option Int) = some (-1) ↔ False := by
    simp only [Option.some.injEq, iff_false]
    omega
  simp [attr_color, h1, h2, hne]

/-- Witness for C8 at a concrete packed color byte. -/
theorem C8_attr_color_packed_witness :
    attr_color (3 * 16 + 12) (some (-1)) = attr_color 12 (some 3) :=
  C8_attr_color_packed 3 12 (by decide) (by decide) (by decide) (by decide)

/-- C5: when the resolved candidate is a raw byte sequence (a key-table miss)
starting with the mouse prefix `ESC [ M`: if it is exactly 6 bytes long,
`get_input` returns the mouse pair `[byte4 - 33, byte5 - 33]`; if it is
shorter than 6 bytes it is returned as the unresolved raw sequence. -/
theorem C5_mouse_decode (keymap : List Nat → Option String) (fresh : List Nat)
    (hmiss : keymap fresh = none)
    (hpre : fresh.take 3 = [0x1b, 0x5b, 0x4d]) :
    (fresh.length = 6 →
      get_input keymap [] fresh =
        .ok (.mouse ((fresh.getD 4 0 : Int) - 33) ((fresh.getD 5 0 : Int) - 33),
          [])) ∧
    (fresh.length < 6 →
      get_input keymap [] fresh = .ok (.bytes fresh, [])) := by
  cases fresh with
  | nil => simp at hpre
  | cons b t =>
    have hb : b = 0x1b := by
      rw [List.take_succ_cons] at hpre
      exact (List.cons.injEq _ _ _ _ ▸ hpre).1
    subst hb
    constructor
    · intro hlen
      simp [get_input, resolveKey, hmiss, hpre, hlen]
    · intro hlen
      have h6 : t.length ≠ 5 := by
        simp only [List.length_cons] at hlen
        omega
      simp [get_input, resolveKey, hmiss, hpre, h6]

/-- Witness for C5: the concrete report `ESC [ M 33 35 37` decodes to the
mouse click `col = 2, row = 4`, and the 4-byte prefix-only chunk passes
through raw. -/
theorem C5_mouse_decode_witness :
    get_input (fun _ => none) [] [27, 91, 77, 33, 35, 37] =
      .ok (.mouse 2 4, []) ∧
    get_input (fun _ => none) [] [27, 91, 77, 33] =
      .ok (.bytes [27, 91, 77, 33], []) := by
  have h6 := (C5_mouse_decode (fun _ => none) [27, 91, 77, 33, 35, 37]
    rfl (by decide)).1 (by decide)
  have h4 := (C5_mouse_decode (fun _ => none) [27, 91, 77, 33]
    rfl (by decide)).2 (by decide)
  exact ⟨by simpa using h6, h4⟩

/-- C6: with an empty lookahead buffer, a fresh read whose first byte is not
`ESC` is UTF-8-decoded; the first decoded character (re-encoded, then
resolved against the key table) is the result and the remaining bytes become
the new buffer.  With a non-empty buffer no read happens (the result is
independent of what a read would return) and exactly one buffered byte is
consumed, with no escape/UTF-8-decode branch applied to it. -/
theorem C6_fresh_decode_and_lookahead (keymap : List Nat → Option String)
    (b : Nat) (t : List Nat) (c : Nat) (cs : List Nat)
    (hb : b ≠ 0x1b) (hdec : utf8Decode (b :: t) = some (c :: cs)) :
    get_input keymap [] (b :: t) =
      .ok (resolveKey keymap (utf8EncodeChar c), utf8Encode cs) ∧
    ∀ (b0 : Nat) (rest fresh1 fresh2 : List Nat),
      get_input keymap (b0 :: rest) fresh1 =
        get_input keymap (b0 :: rest) fresh2 ∧
      get_input keymap (b0 :: rest) fresh1 =
        .ok (resolveKey keymap [b0], rest) := by
  constructor
  · simp [get_input, hb, hdec, utf8Encode]
  · intro b0 rest fresh1 fresh2
    exact ⟨rfl, rfl⟩

/-- Witness for C6: a fresh read of the UTF-8 bytes of "ab" yields the key
`'a'` (byte 97) and buffers byte 98; the next call consumes the buffer with
no read, yielding `'b'`. -/
theorem C6_fresh_decode_and_lookahead_witness :
    get_input (fun _ => none) [] [97, 98] = .ok (.bytes [97], [98]) ∧
    get_input (fun _ => none) [98] [] = .ok (.bytes [98], []) := by
  have h := C6_fresh_decode_and_lookahead (fun _ => none) 97 [98] 97 [98]
    (by decide) (by rfl)
  exact ⟨by simpa using h.1, by simpa using (h.2 98 [] [] [27]).2⟩

/-- C9: `loop` performs a full redraw before any input handling; on each
iteration it decodes one event and dispatches it; when the handler result is
any value other than `None` and `True` the loop returns that result
unchanged at once, and when it is `None` or `True` (the continue sentinel)
the loop goes on to decode the next event. -/
theorem C9_loop_contract (keymap : List Nat → Option String)
    (hm : Int → Int → HRes ρ) (hk : PyVal → HRes ρ) (fuel : Nat)
    (st st2 : InState) (i : PyVal) (v : ρ)
    (hgi : get_input_st keymap st = .ok i st2) :
    (∀ (f : Nat) (s : InState),
      (loop keymap hm hk f s).1.head? = some .redraw) ∧
    (handle_input hm hk i = .hVal v →
      loopAux keymap hm hk (fuel + 1) st = ([.dispatch i], .done v st2)) ∧
    ((handle_input hm hk i = .hNone ∨ handle_input hm hk i = .hTrue) →
      loopAux keymap hm hk (fuel + 1) st =
        (.dispatch i :: (loopAux keymap hm hk fuel st2).1,
         (loopAux keymap hm hk fuel st2).2)) := by
  refine ⟨fun f s => rfl, ?_, ?_⟩
  · intro hres
    simp [loopAux, hgi, hres]
  · rintro (hres | hres) <;> simp [loopAux, hgi, hres]

/-- Witness for C9 at a concrete loop run: one pending read chunk `[97]`, a
key handler returning the value 42 (immediate return) and one returning
`None` (continue). -/
theorem C9_loop_contract_witness :
    (loop (fun _ => none) (fun _ _ => (.hNone : HRes Int))
      (fun _ => .hVal 42) 1 ⟨[], [[97]]⟩).1.head? = some .redraw ∧
    loopAux (fun _ => none) (fun _ _ => (.hNone : HRes Int))
      (fun _ => .hVal 42) 1 ⟨[], [[97]]⟩ =
      ([.dispatch (.bytes [97])], .done 42 ⟨[], []⟩) ∧
    loopAux (fun _ => none) (fun _ _ => (.hNone : HRes Int))
      (fun _ => .hNone) 1 ⟨[], [[97]]⟩ =
      ([.dispatch (.bytes [97])], .fuelOut ⟨[], []⟩) := by
  have h1 := C9_loop_contract (fun _ => none)
    (fun _ _ => (.hNone : HRes Int)) (fun _ => .hVal 42) 0
    ⟨[], [[97]]⟩ ⟨[], []⟩ (.bytes [97]) 42 (by rfl)
  have h2 := C9_loop_contract (fun _ => none)
    (fun _ _ => (.hNone : HRes Int)) (fun _ => .hNone) 0
    ⟨[], [[97]]⟩ ⟨[], []⟩ (.bytes [97]) 42 (by rfl)
  exact ⟨h1.1 1 ⟨[], [[97]]⟩, h1.2.1 (by rfl),
    by simpa using h2.2.2 (Or.inl rfl)⟩

end Picotui
